import Mathlib

/-!
Verification of the WCAGAII resource-management core: the Puppeteer
browser pool (`BrowserPool` in `src/backend/src/services/grokAI.js`),
the circuit breaker (`CircuitBreaker` in
`src/backend/src/schemas/validation.js`), the single-target scan retry
loop (`scanURL` in `src/backend/src/routes/keywordScanLite.js`) and the
bulk wave scheduler (`processBulkScan`).

The JavaScript is embedded shallowly: every pool / breaker operation
becomes a pure Lean function on an explicit state record.  A method
body's synchronous run (in Node it mutates the shared state only
between `await` points) is one atomic step; effects that land at a
*later* observation point — the fire-and-forget replacement creation of
`release` and the awaited creations of `healthCheck`'s replenishment
loop, whose `pool.push` resolves after the launching step returns — are
split out as separate steps of the transition relation
(`pendingCreations` / `creationLands`), so the interleavings the event
loop allows are all represented.
Browser handles are identified by the order of their creation
(`nextHandleId`); per-handle metadata that never influences control flow
(timestamps, acquire counters) is elided.  Wall-clock time is an
explicit `Nat` parameter.
-/

/-! ## Circuit breaker (`src/backend/src/schemas/validation.js`) -/

/-- The three breaker states, as the string constants in the source. -/
inductive CBState
  | CLOSED
  | OPEN
  | HALF_OPEN
deriving DecidableEq, Repr

/-- The `this.metrics` record of `CircuitBreaker`. -/
structure CBMetrics where
  totalRequests : Nat
  totalSuccesses : Nat
  totalFailures : Nat
  totalFallbacks : Nat
  totalRejections : Nat
  stateChanges : Nat
deriving DecidableEq, Repr

/-- The mutable fields of the `CircuitBreaker` class, plus a ghost
`trace` accumulating every `transitionTo` call as an
(old state, new state) pair, used to state the transition invariant. -/
structure CircuitBreaker where
  state : CBState
  failures : Nat
  successes : Nat
  lastFailTime : Option Nat
  lastSuccessTime : Option Nat
  lastStateChange : Nat
  failureThreshold : Nat
  successThreshold : Nat
  timeout : Nat
  resetTimeout : Nat
  metrics : CBMetrics
  trace : List (CBState × CBState)
deriving DecidableEq, Repr

namespace CircuitBreaker

/-- A breaker as built by the constructor with default options
(`failureThreshold 5`, `successThreshold 2`, `timeout 60000`,
`resetTimeout 30000`), constructed at time 0. -/
def mkDefault : CircuitBreaker :=
  { state := .CLOSED
    failures := 0
    successes := 0
    lastFailTime := none
    lastSuccessTime := none
    lastStateChange := 0
    failureThreshold := 5
    successThreshold := 2
    timeout := 60000
    resetTimeout := 30000
    metrics := ⟨0, 0, 0, 0, 0, 0⟩
    trace := [] }

/-- `transitionTo(newState)`: records the transition, updates
`lastStateChange`, bumps `stateChanges`, and resets the counters the
source resets (both on entering CLOSED, `successes` on entering
HALF_OPEN). -/
def transitionTo (cb : CircuitBreaker) (newState : CBState) (now : Nat) : CircuitBreaker :=
  let cb := { cb with
    trace := cb.trace ++ [(cb.state, newState)]
    state := newState
    lastStateChange := now
    metrics.stateChanges := cb.metrics.stateChanges + 1 }
  match newState with
  | .CLOSED => { cb with failures := 0, successes := 0 }
  | .HALF_OPEN => { cb with successes := 0 }
  | .OPEN => cb

/-- `shouldAttemptReset()`: `Date.now() - lastStateChange >= resetTimeout`
(truncated subtraction matches the source for the monotone clocks used
here). -/
def shouldAttemptReset (cb : CircuitBreaker) (now : Nat) : Bool :=
  cb.resetTimeout ≤ now - cb.lastStateChange

/-- `onSuccess()`. -/
def onSuccess (cb : CircuitBreaker) (now : Nat) : CircuitBreaker :=
  let cb := { cb with
    metrics.totalSuccesses := cb.metrics.totalSuccesses + 1
    lastSuccessTime := some now }
  if cb.state = .HALF_OPEN then
    let cb := { cb with successes := cb.successes + 1 }
    if cb.successThreshold ≤ cb.successes then cb.transitionTo .CLOSED now else cb
  else
    { cb with failures := 0 }

/-- `onFailure(error)`. -/
def onFailure (cb : CircuitBreaker) (now : Nat) : CircuitBreaker :=
  let cb := { cb with
    metrics.totalFailures := cb.metrics.totalFailures + 1
    failures := cb.failures + 1
    lastFailTime := some now }
  if cb.state = .HALF_OPEN then cb.transitionTo .OPEN now
  else if cb.failureThreshold ≤ cb.failures then cb.transitionTo .OPEN now
  else cb

/-- How one `execute(fn, fallback)` call settles.  The first two
variants are the OPEN fast-reject path, on which `fn` is never invoked;
`rejectedNoFallback` is the thrown `CircuitOpenError`
(`Circuit breaker is OPEN`). -/
inductive ExecResult
  | rejectedNoFallback
  | rejectedFallback
  | fnSuccess
  | fnFailureFallback
  | fnFailureThrown
deriving DecidableEq, Repr

/-- The try-block of `execute`: run `fn` under the timeout race
(`fnSucceeds = false` covers both a thrown error and the timeout), then
`onSuccess`/`onFailure`, with the fallback masking a failure when
supplied. -/
def runAction (cb : CircuitBreaker) (now : Nat) (fnSucceeds hasFallback : Bool) :
    CircuitBreaker × ExecResult :=
  if fnSucceeds then (cb.onSuccess now, .fnSuccess)
  else
    let cb := cb.onFailure now
    if hasFallback then
      ({ cb with metrics.totalFallbacks := cb.metrics.totalFallbacks + 1 }, .fnFailureFallback)
    else (cb, .fnFailureThrown)

/-- `execute(fn, fallback)`.  `fnSucceeds` is the outcome of the action
should it be invoked; `hasFallback` is whether a fallback was supplied. -/
def execute (cb : CircuitBreaker) (now : Nat) (fnSucceeds hasFallback : Bool) :
    CircuitBreaker × ExecResult :=
  let cb := { cb with metrics.totalRequests := cb.metrics.totalRequests + 1 }
  if cb.state = .OPEN then
    if cb.shouldAttemptReset now then
      runAction (cb.transitionTo .HALF_OPEN now) now fnSucceeds hasFallback
    else
      let cb := { cb with metrics.totalRejections := cb.metrics.totalRejections + 1 }
      if hasFallback then
        ({ cb with metrics.totalFallbacks := cb.metrics.totalFallbacks + 1 }, .rejectedFallback)
      else (cb, .rejectedNoFallback)
  else runAction cb now fnSucceeds hasFallback

end CircuitBreaker

/-- The state transitions one `execute` call is specified to make, per
the claimed invariant: CLOSED→OPEN when the failure count reaches
`failureThreshold`; OPEN→HALF_OPEN when at least `resetTimeout` has
elapsed since the last state change (attempted on the next call, and the
call then runs as the trial, so it may itself transition HALF_OPEN→CLOSED
on a success reaching `successThreshold`, the trial being the first
success after the counter reset, or HALF_OPEN→OPEN on a failure);
HALF_OPEN→CLOSED when the success count reaches `successThreshold`;
HALF_OPEN→OPEN on any failure. -/
def specTransitions (cb : CircuitBreaker) (now : Nat) (fnSucceeds : Bool) :
    List (CBState × CBState) :=
  match cb.state with
  | .CLOSED =>
      if fnSucceeds then []
      else if cb.failureThreshold ≤ cb.failures + 1 then [(.CLOSED, .OPEN)] else []
  | .HALF_OPEN =>
      if fnSucceeds then
        if cb.successThreshold ≤ cb.successes + 1 then [(.HALF_OPEN, .CLOSED)] else []
      else [(.HALF_OPEN, .OPEN)]
  | .OPEN =>
      if cb.resetTimeout ≤ now - cb.lastStateChange then
        (.OPEN, .HALF_OPEN) ::
          (if fnSucceeds then
            if cb.successThreshold ≤ 1 then [(.HALF_OPEN, .CLOSED)] else []
          else [(.HALF_OPEN, .OPEN)])
      else []

/-- The state after the transitions of `specTransitions`. -/
def specStateAfter (cb : CircuitBreaker) (now : Nat) (fnSucceeds : Bool) : CBState :=
  ((specTransitions cb now fnSucceeds).getLastD (cb.state, cb.state)).2

/-! ## Browser pool (`BrowserPool` in `src/backend/src/services/grokAI.js`)

Handles are identified by creation order: `createBrowser` hands out
`nextHandleId` and increments it.  The JS array `this.pool` pushes and
pops at its end, so it is embedded as a Lean list with the array's end
at the list's head (`push` is `cons`, `pop` takes the head); the JS
waiter queue pushes at the end and shifts from the front, so it is a
list with the front at the head (`push` appends, `shift` takes the
head). -/

/-- The distinct JavaScript function objects compared by `===` in the
acquire-timeout callback: the raw `resolve` of the waiter's `Promise`
executor, and the wrapping closure actually stored in the queue entry
(`(browser) => { clearTimeout(timeoutId); resolve(browser); }`).
Distinct constructors model distinct function identities. -/
inductive JsFun
  | promiseResolve (wid : Nat)
  | queueWrapper (wid : Nat)
deriving DecidableEq, Repr, BEq

/-- One entry of `this.queue`: the waiter's identity plus the function
object stored in its `resolve` field (always the wrapper). -/
structure QEntry where
  wid : Nat
  resolve : JsFun
deriving DecidableEq, Repr, BEq

/-- The `this.metrics` record of `BrowserPool`. -/
structure PoolMetrics where
  totalAcquired : Nat
  totalReleased : Nat
  totalCreated : Nat
  totalDestroyed : Nat
  queueHighWaterMark : Nat
  errors : Nat
deriving DecidableEq, Repr

/-- The pool's state.  `pool`, `activeCount`, `queue`, `minSize`,
`maxSize` and `metrics` are the source's fields.  The rest is ghost
bookkeeping that the JS keeps implicitly: `held` lists the handles
currently lent out to callers (the source only counts them in
`activeCount`), `destroyedIds` the handles on which `browser.close()`
was called, `timedOut` the waiters whose deadline timer has fired (their
promise is settled), `pendingCreations` counts the `createBrowser()`
calls already launched whose `pool.push` has not landed yet (the
`await puppeteer.launch` is still in flight — the push happens at a
later observation point, as a separate step of the transition relation),
and the two `next…` counters provide fresh identities. -/
structure PoolState where
  pool : List Nat
  activeCount : Nat
  queue : List QEntry
  minSize : Nat
  maxSize : Nat
  metrics : PoolMetrics
  held : List Nat
  destroyedIds : List Nat
  timedOut : List Nat
  pendingCreations : Nat
  nextHandleId : Nat
  nextWaiterId : Nat
deriving DecidableEq, Repr

namespace BrowserPool

/-- The state right after the constructor's `initialize()` finished:
`minSize` browsers created and pushed (ids `0 … minSize-1`, the last
push at the head). -/
def initialState (minS maxS : Nat) : PoolState :=
  { pool := (List.range minS).reverse
    activeCount := 0
    queue := []
    minSize := minS
    maxSize := maxS
    metrics := ⟨0, 0, minS, 0, 0, 0⟩
    held := []
    destroyedIds := []
    timedOut := []
    pendingCreations := 0
    nextHandleId := minS
    nextWaiterId := 0 }

/-- How one `acquire(timeout)` call settles: a browser is returned, the
request is queued as a waiter, or the synchronous `createBrowser` threw
(the error propagates to the caller). -/
inductive AcquireResult
  | acquired (h : Nat)
  | enqueued (wid : Nat)
  | createFailed
deriving DecidableEq, Repr

/-- The body of `acquire`, recursing on the pool contents (the
`return this.acquire(timeout)` retry after destroying a disconnected
browser).  `l` is the current `this.pool`; every call keeps
`s.pool = l`.  `conn` is each browser's `isConnected()` answer,
`createOk` whether `puppeteer.launch` succeeds.  In the create branch
the source pushes the new browser and immediately pops it
(`this.pool.pop()`), leaving the pool unchanged. -/
def acquireLoop (conn : Nat → Bool) (createOk : Bool) :
    List Nat → PoolState → PoolState × AcquireResult
  | b :: rest, s =>
    let s := { s with metrics.totalAcquired := s.metrics.totalAcquired + 1 }
    if conn b then
      ({ s with pool := rest, activeCount := s.activeCount + 1, held := b :: s.held },
        .acquired b)
    else
      acquireLoop conn createOk rest
        { s with pool := rest
                 destroyedIds := b :: s.destroyedIds
                 metrics.totalDestroyed := s.metrics.totalDestroyed + 1 }
  | [], s =>
    let s := { s with metrics.totalAcquired := s.metrics.totalAcquired + 1 }
    if s.activeCount < s.maxSize then
      if createOk then
        ({ s with activeCount := s.activeCount + 1
                  nextHandleId := s.nextHandleId + 1
                  held := s.nextHandleId :: s.held
                  metrics.totalCreated := s.metrics.totalCreated + 1 },
          .acquired s.nextHandleId)
      else
        ({ s with metrics.errors := s.metrics.errors + 1 }, .createFailed)
    else
      let w := s.nextWaiterId
      ({ s with queue := s.queue ++ [⟨w, .queueWrapper w⟩]
                nextWaiterId := w + 1
                metrics.queueHighWaterMark :=
                  max s.metrics.queueHighWaterMark (s.queue.length + 1) },
        .enqueued w)

/-- `acquire(timeout)`. -/
def acquire (conn : Nat → Bool) (createOk : Bool) (s : PoolState) :
    PoolState × AcquireResult :=
  acquireLoop conn createOk s.pool s

/-- How one `release(browser)` call settles. -/
inductive ReleaseResult
  | destroyedUnhealthy (replaced : Bool)
  | handedToWaiter (wid : Nat)
  | returnedToIdle
  | destroyedSurplus
deriving DecidableEq, Repr

/-- `release(browser)` for handle `h`.  Unhealthy: destroy, and — when
`pool.length + activeCount < minSize` — fire-and-forget a replacement
`createBrowser()`.  That call is not awaited: `release` returns with the
creation still in flight (recorded in `pendingCreations`); its
`pool.push` lands at a later observation point, as the `creationLands`
step, with no re-check of any bound.  Healthy: hand to the oldest
waiter if any (its wrapped `resolve` clears the deadline timer and
resolves the promise — a no-op delivery when the waiter already timed
out), else push to the idle pool when below `maxSize`, else destroy the
surplus handle. -/
def release (conn : Nat → Bool) (h : Nat) (s : PoolState) :
    PoolState × ReleaseResult :=
  let s := { s with
    metrics.totalReleased := s.metrics.totalReleased + 1
    activeCount := s.activeCount - 1
    held := s.held.erase h }
  if conn h then
    match s.queue with
    | e :: rest =>
        ({ s with queue := rest, activeCount := s.activeCount + 1, held := h :: s.held },
          .handedToWaiter e.wid)
    | [] =>
        if s.pool.length < s.maxSize then
          ({ s with pool := h :: s.pool }, .returnedToIdle)
        else
          ({ s with destroyedIds := h :: s.destroyedIds
                    metrics.totalDestroyed := s.metrics.totalDestroyed + 1 },
            .destroyedSurplus)
  else
    let s := { s with destroyedIds := h :: s.destroyedIds
                      metrics.totalDestroyed := s.metrics.totalDestroyed + 1 }
    if s.pool.length + s.activeCount < s.minSize then
      ({ s with pendingCreations := s.pendingCreations + 1 }, .destroyedUnhealthy true)
    else (s, .destroyedUnhealthy false)

/-- An in-flight `createBrowser()` resolves: `puppeteer.launch`
succeeded, the browser is pushed onto the idle pool and `totalCreated`
bumped — with no bound check against the state the push lands in. -/
def creationLands (s : PoolState) : PoolState :=
  { s with pool := s.nextHandleId :: s.pool
           nextHandleId := s.nextHandleId + 1
           metrics.totalCreated := s.metrics.totalCreated + 1
           pendingCreations := s.pendingCreations - 1 }

/-- An in-flight `createBrowser()` rejects: `puppeteer.launch` threw,
nothing is pushed, the error metric is bumped (the caller's `.catch`
merely logs). -/
def creationFails (s : PoolState) : PoolState :=
  { s with metrics.errors := s.metrics.errors + 1
           pendingCreations := s.pendingCreations - 1 }

/-- The synchronous phase of `healthCheck()`: destroy the disconnected
idle browsers.  When some were removed, the source then enters the
`while (pool.length + activeCount < minSize)` replenishment loop, which
*awaits* a `createBrowser()` on each iteration: the guard is checked at
one observation point and the push lands at a later one.  Those loop
iterations are therefore modelled as separate steps of the transition
relation (`replenishStep` launching a creation whose push lands via
`creationLands`), not folded into this function. -/
def healthCheck (conn : Nat → Bool) (s : PoolState) : PoolState :=
  let unhealthy := s.pool.filter (fun b => !conn b)
  { s with
    pool := s.pool.filter (fun b => conn b)
    destroyedIds := unhealthy ++ s.destroyedIds
    metrics.totalDestroyed := s.metrics.totalDestroyed + unhealthy.length }

/-- A replenishment-loop iteration observes
`pool.length + activeCount < minSize` and launches a `createBrowser()`;
the push lands later via `creationLands`. -/
def replenishBegin (s : PoolState) : PoolState :=
  { s with pendingCreations := s.pendingCreations + 1 }

/-- The deadline timer of waiter `w` fires: look the waiter up with
`findIndex(item => item.resolve === resolve)` — comparing each entry's
stored wrapper closure against the raw promise `resolve` captured by the
timer — splice it out when found, and reject the promise (recorded in
`timedOut`). -/
def timeoutFire (w : Nat) (s : PoolState) : PoolState :=
  match s.queue.findIdx? (fun e => e.resolve == JsFun.promiseResolve w) with
  | some i => { s with queue := s.queue.eraseIdx i, timedOut := w :: s.timedOut }
  | none => { s with timedOut := w :: s.timedOut }

/-- What `cleanup()` did: which waiters it rejected (each wrapped
`reject` clears the waiter's deadline timer) with the
`Browser pool is shutting down` error. -/
structure CleanupReport where
  rejectedWaiters : List Nat
deriving DecidableEq, Repr

/-- `cleanup()`: reject every queued waiter, close every idle browser,
then `this.pool = []; this.activeCount = 0`.  (The source neither waits
for nor closes the browsers currently lent out, and does not bump
`totalDestroyed` for the closed idle ones.) -/
def cleanup (s : PoolState) : PoolState × CleanupReport :=
  ({ s with queue := []
            pool := []
            destroyedIds := s.pool ++ s.destroyedIds
            activeCount := 0 },
    ⟨s.queue.map QEntry.wid⟩)

/-- The pool states reachable from a freshly initialized pool by the
operations the source exposes while the pool is live.  The release step
carries the single-owner obligation of the API (`release` is called by
the caller the handle was lent to, hence on a handle in `held`).
`replenishStep` is a health-check replenishment-loop iteration whose
guard holds at launch time; `creationLandsStep` / `creationFailsStep`
settle any in-flight creation (launched by either the fire-and-forget
replacement in `release` or a replenishment iteration) at a later
observation point.  The relation admits every schedule the Node event
loop can produce for these operations (and some more — it does not force
the replenishment loop's iterations to be serialized — so invariants
proved over it hold a fortiori of the real schedules). -/
inductive Reachable : PoolState → Prop
  | init (minS maxS : Nat) : Reachable (initialState minS maxS)
  | acquireStep {s : PoolState} (conn : Nat → Bool) (createOk : Bool) :
      Reachable s → Reachable (acquire conn createOk s).1
  | releaseStep {s : PoolState} (conn : Nat → Bool) (h : Nat) :
      Reachable s → h ∈ s.held → Reachable (release conn h s).1
  | healthStep {s : PoolState} (conn : Nat → Bool) :
      Reachable s → Reachable (healthCheck conn s)
  | replenishStep {s : PoolState} :
      Reachable s → s.pool.length + s.activeCount < s.minSize →
      Reachable (replenishBegin s)
  | creationLandsStep {s : PoolState} :
      Reachable s → 0 < s.pendingCreations → Reachable (creationLands s)
  | creationFailsStep {s : PoolState} :
      Reachable s → 0 < s.pendingCreations → Reachable (creationFails s)
  | timeoutStep {s : PoolState} (w : Nat) :
      Reachable s → Reachable (timeoutFire w s)

end BrowserPool

/-! ## Single-target scan (`scanURL` in
`src/backend/src/routes/keywordScanLite.js`)

The analysis work between acquire and release (page creation,
navigation, the axe-core run) is the opaque collaborator; its outcome on
the k-th attempt is `outcomes k` (`.ok ()` or `.error e` with `e` the
thrown error, timeouts included).  `isPrivate` is the result of the
`isPrivateIP(url)` security check. -/

/-- `const MAX_RETRIES = 3`. -/
def MAX_RETRIES : Nat := 3

/-- How `scanURL(url)` settles.  `success k` is a normal return whose
result was produced on attempt `k`; `finalFailure k e` is the
`Scan failed after k retries` error carrying the last underlying error
`e`; `securityViolation` the SSRF rejection; `blocked` an acquire that
parked the request in the waiter queue (the call is then suspended until
a release or its deadline — not reached from the states used here);
`loopExit` the unreachable normal exit of the while loop. -/
inductive ScanOutcome
  | success (attempts : Nat)
  | finalFailure (attempts : Nat) (lastError : Nat)
  | securityViolation
  | blocked
  | loopExit
deriving DecidableEq, Repr

/-- An entry of the ghost attempt log: attempt index, the handle that
attempt used, and whether the analysis call succeeded. -/
abbrev ScanAttempt := Nat × Nat × Bool

/-- The `while (retries < MAX_RETRIES)` loop of `scanURL`.  `fuel` is
the number of loop iterations still permitted, kept equal to
`MAX_RETRIES - retries` (structural recursion on the remaining
iterations).  On a failed attempt the source closes the page, *releases*
the browser back to the pool, throws the final error when
`retries >= MAX_RETRIES`, and otherwise sleeps `1000 * retries`
milliseconds (the accumulated sleeps are returned as `delays`).  A
failure of the in-loop `acquire` itself is caught by the same catch
block with no browser to release. -/
def scanLoop (conn : Nat → Bool) (createOk : Bool) (createErr : Nat)
    (outcomes : Nat → Except Nat Unit) :
    Nat → Nat → PoolState → List Nat → List ScanAttempt →
    PoolState × ScanOutcome × List Nat × List ScanAttempt
  | 0, _, s, delays, log => (s, .loopExit, delays, log)
  | fuel + 1, retries, s, delays, log =>
    match BrowserPool.acquire conn createOk s with
    | (s1, .acquired b) =>
      match outcomes retries with
      | .ok _ =>
          let s2 := (BrowserPool.release conn b s1).1
          (s2, .success (retries + 1), delays, log ++ [(retries, b, true)])
      | .error e =>
          let log := log ++ [(retries, b, false)]
          let r := retries + 1
          let s2 := (BrowserPool.release conn b s1).1
          if MAX_RETRIES ≤ r then (s2, .finalFailure r e, delays, log)
          else scanLoop conn createOk createErr outcomes fuel r s2 (delays ++ [1000 * r]) log
    | (s1, .createFailed) =>
      let r := retries + 1
      if MAX_RETRIES ≤ r then (s1, .finalFailure r createErr, delays, log)
      else scanLoop conn createOk createErr outcomes fuel r s1 (delays ++ [1000 * r]) log
    | (s1, .enqueued _) => (s1, .blocked, delays, log)

/-- `scanURL(url, options)`. -/
def scanURL (conn : Nat → Bool) (createOk : Bool) (createErr : Nat)
    (outcomes : Nat → Except Nat Unit) (isPrivate : Bool) (s : PoolState) :
    PoolState × ScanOutcome × List Nat × List ScanAttempt :=
  if isPrivate then (s, .securityViolation, [], [])
  else scanLoop conn createOk createErr outcomes MAX_RETRIES 0 s [] []

/-! ## Bulk scan (`processBulkScan` in `src/unnamed/part_008`)

Targets are abstract (numbered); the per-target scan is the opaque
collaborator `scan`, giving each target's settlement: `.ok v` a
fulfilled scan, `.error e` a rejection with reason `e`. -/

/-- The accumulated outcome of `processBulkScan`: the `results` and
`errors` arrays and the `progress` value stored after each wave
(`Math.min(i + concurrency, urls.length)`). -/
structure BulkResult where
  results : List (Nat × Nat)
  errors : List (Nat × Nat)
  progress : List Nat
deriving DecidableEq, Repr

/-- The `for (let i = 0; i < urls.length; i += concurrency)` loop.
`c + 1` is the (positive) concurrency; `total` is `urls.length`; `i`
the current loop index; `fuel` bounds the remaining iterations (any
`fuel ≥ remaining targets` gives the loop's behaviour — each wave
settles at least one target).  `Promise.allSettled` settles every task
of the wave and the `forEach` then files each into `results` or
`errors`. -/
def bulkLoop (scan : Nat → Except Nat Nat) (c : Nat) (total : Nat) :
    Nat → Nat → List Nat → BulkResult → BulkResult
  | _, _, [], acc => acc
  | 0, _, _ :: _, acc => acc
  | fuel + 1, i, u :: us, acc =>
    let batch := (u :: us).take (c + 1)
    let settled := batch.map (fun v => (v, scan v))
    let acc :=
      { results := acc.results ++ settled.filterMap
          (fun p => match p.2 with | .ok v => some (p.1, v) | .error _ => none)
        errors := acc.errors ++ settled.filterMap
          (fun p => match p.2 with | .ok _ => none | .error e => some (p.1, e))
        progress := acc.progress ++ [min (i + (c + 1)) total] }
    bulkLoop scan c total fuel (i + (c + 1)) ((u :: us).drop (c + 1)) acc

/-- `processBulkScan(batchId, urls, options)` with
`SCAN_CONCURRENCY = conc`.  With `conc = 0` the JS loop would never
advance (`i += 0`), so the model is defined for positive `conc` only. -/
def processBulkScan (scan : Nat → Except Nat Nat) (conc : Nat) (urls : List Nat) :
    Option BulkResult :=
  match conc with
  | 0 => none
  | c + 1 => some (bulkLoop scan c urls.length urls.length 0 urls ⟨[], [], []⟩)

/-- The per-target accounting the bulk loop is specified to produce: the
fulfilled targets, in input order, with their values. -/
def bulkSpecResults (scan : Nat → Except Nat Nat) (urls : List Nat) : List (Nat × Nat) :=
  urls.filterMap (fun u => match scan u with | .ok v => some (u, v) | .error _ => none)

/-- The rejected targets, in input order, with their reasons. -/
def bulkSpecErrors (scan : Nat → Except Nat Nat) (urls : List Nat) : List (Nat × Nat) :=
  urls.filterMap (fun u => match scan u with | .ok _ => none | .error e => some (u, e))

/-- The progress values recorded after the successive waves: one update
per wave, `min (i + concurrency) total` for wave start index `i`, where
the concurrency is `c + 1`.  `rem` is the number of targets not yet
dispatched. -/
def bulkSpecProgress (c total : Nat) : Nat → Nat → List Nat
  | _, 0 => []
  | i, rem + 1 => min (i + (c + 1)) total :: bulkSpecProgress c total (i + (c + 1)) (rem - c)
termination_by _ rem => rem
decreasing_by omega

/-! ## Claim-level definitions -/

/-- One `execute` call that fails with no fallback, at time 0. -/
def cbFailStep (cb : CircuitBreaker) : CircuitBreaker :=
  (CircuitBreaker.execute cb 0 false false).1

/-- A default breaker after 5 consecutive failed `execute` calls. -/
def cbAfter5Failures : CircuitBreaker :=
  cbFailStep (cbFailStep (cbFailStep (cbFailStep (cbFailStep CircuitBreaker.mkDefault))))

/-- A half-open breaker one trial success away from closing. -/
def cbHalfOpenNearClose : CircuitBreaker :=
  { CircuitBreaker.mkDefault with state := .HALF_OPEN, successes := 1 }

/-- A `minSize 1, maxSize 1` pool whose single browser is lent out. -/
def poolOneActive : PoolState :=
  (BrowserPool.acquire (fun _ => true) true (BrowserPool.initialState 1 1)).1

/-- `poolOneActive` after a second `acquire`, which found the pool
exhausted and parked waiter 0 in the queue. -/
def poolMaxedOneWaiter : PoolState :=
  (BrowserPool.acquire (fun _ => true) true poolOneActive).1

/-- Claim C6's disposal policy as stated: every failed attempt destroys
the handle used in that attempt (it appears among the destroyed ids of
the final state) rather than returning it to the pool. -/
def scanDestroysFailedAttemptHandle : Prop :=
  ∀ (conn : Nat → Bool) (createOk : Bool) (createErr : Nat)
    (outcomes : Nat → Except Nat Unit) (isPrivate : Bool) (s : PoolState),
    ∀ p ∈ (scanURL conn createOk createErr outcomes isPrivate s).2.2.2,
      p.2.2 = false →
        p.2.1 ∈ (scanURL conn createOk createErr outcomes isPrivate s).1.destroyedIds

/-- Claim C8 as stated: `cleanup()` rejects every queued waiter,
destroys all idle handles, and (after the grace period) force-destroys
every handle still lent out. -/
def shutdownDestroysActiveClaim : Prop :=
  ∀ s : PoolState,
    (BrowserPool.cleanup s).2.rejectedWaiters = s.queue.map QEntry.wid
    ∧ (∀ h ∈ s.pool, h ∈ (BrowserPool.cleanup s).1.destroyedIds)
    ∧ (∀ h ∈ s.held, h ∈ (BrowserPool.cleanup s).1.destroyedIds)

/-- The pool's health invariant, established for every reachable state:
the active counter counts the lent-out handles; idle and lent-out
handles are distinct, below the id watermark, and never among the
destroyed ones.  (The bound `activeCount + poolSize ≤ maxSize` is *not*
an invariant of the program — see `claimC1_bound_violated` — so it is
not part of this structure.) -/
structure PoolInv (s : PoolState) : Prop where
  activeEq : s.activeCount = s.held.length
  poolNodup : s.pool.Nodup
  heldNodup : s.held.Nodup
  poolLt : ∀ h ∈ s.pool, h < s.nextHandleId
  heldLt : ∀ h ∈ s.held, h < s.nextHandleId
  destLt : ∀ h ∈ s.destroyedIds, h < s.nextHandleId
  poolDest : ∀ h ∈ s.pool, h ∉ s.destroyedIds
  heldDest : ∀ h ∈ s.held, h ∉ s.destroyedIds
  poolHeld : ∀ h ∈ s.pool, h ∉ s.held

/-- Claim C1 as stated: in every state reachable under any interleaving
of the pool's operations (with sane bounds `minSize ≤ maxSize`), the
active count plus the idle-pool size is at most `maxSize`. -/
def poolBoundClaim : Prop :=
  ∀ s : PoolState, BrowserPool.Reachable s → s.minSize ≤ s.maxSize →
    s.activeCount + s.pool.length ≤ s.maxSize

/-- The schedule on which the program overshoots `maxSize`, on a
`minSize 2, maxSize 2` pool: acquire both browsers; release one as
disconnected (its fire-and-forget replacement creation is launched,
since `0 idle + 1 active < minSize`); a third acquire then creates a
browser synchronously, refilling `activeCount` to 2; finally the
replacement's launch resolves and its un-checked `pool.push` lands —
2 active + 1 idle = 3 > `maxSize`. -/
def poolOvershoot : PoolState :=
  BrowserPool.creationLands
    (BrowserPool.acquire (fun _ => true) true
      (BrowserPool.release (fun _ => false) 1
        (BrowserPool.acquire (fun _ => true) true
          (BrowserPool.acquire (fun _ => true) true
            (BrowserPool.initialState 2 2)).1).1).1).1

/-! ## Theorems -/

/-- C3: with `failureThreshold = 5`, after 5 consecutive failed
`execute()` calls the breaker is OPEN, and a 6th call made before
`resetTimeout` has elapsed settles as `rejectedNoFallback`: the action
is never invoked (that variant is produced only on the fast-reject
path), the rejection counter is bumped, and with no fallback the
`CircuitOpenError` propagates to the caller. -/
theorem claimC3_fail_fast :
    cbAfter5Failures.state = .OPEN
    ∧ 100 - cbAfter5Failures.lastStateChange < cbAfter5Failures.resetTimeout
    ∧ (CircuitBreaker.execute cbAfter5Failures 100 false false).2 = .rejectedNoFallback
    ∧ (CircuitBreaker.execute cbAfter5Failures 100 false false).1.metrics.totalRejections
        = cbAfter5Failures.metrics.totalRejections + 1
    ∧ (CircuitBreaker.execute cbAfter5Failures 100 false false).1.state = .OPEN := by
  decide

/-- C4: the acquire-timeout callback never removes the timed-out waiter
from the queue.  In a full pool with one queued waiter, firing the
waiter's deadline timer rejects its promise (it is recorded as timed
out) yet leaves the queue entry in place, because the source's
`findIndex(item => item.resolve === resolve)` compares the stored
wrapper closure against the raw promise resolve — two distinct function
objects — and so never matches. -/
theorem claimC4_timed_out_waiter_leaks :
    poolMaxedOneWaiter.queue = [⟨0, .queueWrapper 0⟩]
    ∧ (BrowserPool.timeoutFire 0 poolMaxedOneWaiter).queue = [⟨0, .queueWrapper 0⟩]
    ∧ 0 ∈ (BrowserPool.timeoutFire 0 poolMaxedOneWaiter).timedOut
    ∧ (poolMaxedOneWaiter.queue.findIdx?
        (fun e => e.resolve == JsFun.promiseResolve 0)) = none := by
  decide

/-- C8 fails as stated: `cleanup()` never destroys the handles still
lent out (there is no grace period and no force-destroy).  In a pool
whose single browser is active, `cleanup()` leaves it untouched. -/
theorem claimC8_counterexample : ¬ shutdownDestroysActiveClaim := by
  intro hclaim
  have h0 : (0 : Nat) ∈ poolOneActive.held := by decide
  have := (hclaim poolOneActive).2.2 0 h0
  exact absurd this (by decide)

/-- C8 amended: `cleanup()` rejects every queued waiter (with the
shutting-down error, each wrapped `reject` cancelling the waiter's
deadline timer), destroys exactly the idle handles, and resets the idle
pool and the active counter to zero; handles still lent out are neither
waited for nor destroyed — they are simply dropped from the
bookkeeping. -/
theorem claimC8_amended (s : PoolState) :
    (BrowserPool.cleanup s).2.rejectedWaiters = s.queue.map QEntry.wid
    ∧ (BrowserPool.cleanup s).1.queue = []
    ∧ (BrowserPool.cleanup s).1.destroyedIds = s.pool ++ s.destroyedIds
    ∧ (BrowserPool.cleanup s).1.pool = []
    ∧ (BrowserPool.cleanup s).1.activeCount = 0
    ∧ (BrowserPool.cleanup s).1.held = s.held := by
  simp [BrowserPool.cleanup]

/-- C10: a `release()` of a disconnected browser never resolves a
queued waiter: the queue is untouched, the call settles as
`destroyedUnhealthy` (never `handedToWaiter`), the handle joins the
destroyed set, and the release itself leaves the idle pool unchanged —
it at most launches the fire-and-forget replacement creation, exactly
when `pool.length + activeCount < minSize` after the decrement.  When
that replacement later lands, it only pushes the fresh browser onto the
idle list: it too leaves the waiter queue (and the active count)
unchanged, so a queued waiter is only ever resolved by a healthy
release. -/
theorem claimC10_unhealthy_release_frame (conn : Nat → Bool) (h : Nat) (s : PoolState)
    (hc : conn h = false) :
    (BrowserPool.release conn h s).1.queue = s.queue
    ∧ (BrowserPool.release conn h s).2 =
        .destroyedUnhealthy (decide (s.pool.length + (s.activeCount - 1) < s.minSize))
    ∧ (BrowserPool.release conn h s).1.pool = s.pool
    ∧ (BrowserPool.release conn h s).1.pendingCreations =
        s.pendingCreations +
          (if s.pool.length + (s.activeCount - 1) < s.minSize then 1 else 0)
    ∧ h ∈ (BrowserPool.release conn h s).1.destroyedIds
    ∧ ∀ s2 : PoolState,
        (BrowserPool.creationLands s2).queue = s2.queue
        ∧ (BrowserPool.creationLands s2).pool = s2.nextHandleId :: s2.pool
        ∧ (BrowserPool.creationLands s2).activeCount = s2.activeCount := by
  refine ⟨?_, ?_, ?_, ?_, ?_, fun s2 => ⟨rfl, rfl, rfl⟩⟩ <;>
    simp only [BrowserPool.release, hc, Bool.false_eq_true, if_false] <;>
    split <;> simp_all

/-- Witness for C10 at a concrete input. -/
theorem claimC10_witness :
    ((fun _ => false) : Nat → Bool) 0 = false
    ∧ ((BrowserPool.release (fun _ => false) 0 poolOneActive).1.queue = poolOneActive.queue
      ∧ (BrowserPool.release (fun _ => false) 0 poolOneActive).2 =
          .destroyedUnhealthy (decide (poolOneActive.pool.length +
            (poolOneActive.activeCount - 1) < poolOneActive.minSize))
      ∧ (BrowserPool.release (fun _ => false) 0 poolOneActive).1.pool = poolOneActive.pool
      ∧ (BrowserPool.release (fun _ => false) 0 poolOneActive).1.pendingCreations =
          poolOneActive.pendingCreations +
            (if poolOneActive.pool.length + (poolOneActive.activeCount - 1) <
                poolOneActive.minSize then 1 else 0)
      ∧ 0 ∈ (BrowserPool.release (fun _ => false) 0 poolOneActive).1.destroyedIds
      ∧ ∀ s2 : PoolState,
          (BrowserPool.creationLands s2).queue = s2.queue
          ∧ (BrowserPool.creationLands s2).pool = s2.nextHandleId :: s2.pool
          ∧ (BrowserPool.creationLands s2).activeCount = s2.activeCount) :=
  ⟨rfl, claimC10_unhealthy_release_frame (fun _ => false) 0 poolOneActive rfl⟩

/-- C9: with a fallback supplied, a failing action in a non-OPEN state
still records the failure — `failures` is incremented, the failure
metric bumped, and the state moves exactly as the transition rules
dictate (possibly opening the circuit) — yet `execute` settles with the
fallback's result (`fnFailureFallback`) instead of propagating the
action's error. -/
theorem claimC9_fallback_masks_failures (cb : CircuitBreaker) (now : Nat)
    (h : cb.state ≠ .OPEN) :
    (CircuitBreaker.execute cb now false true).2 = .fnFailureFallback
    ∧ (CircuitBreaker.execute cb now false true).1.failures = cb.failures + 1
    ∧ (CircuitBreaker.execute cb now false true).1.metrics.totalFailures
        = cb.metrics.totalFailures + 1
    ∧ (CircuitBreaker.execute cb now false true).1.state = specStateAfter cb now false := by
  cases hst : cb.state <;>
    simp_all [CircuitBreaker.execute, CircuitBreaker.runAction, CircuitBreaker.onFailure,
      CircuitBreaker.transitionTo, specStateAfter, specTransitions] <;>
    split_ifs <;> simp_all

/-- Witness for C9: a CLOSED breaker one failure from its threshold. -/
theorem claimC9_witness :
    ({ CircuitBreaker.mkDefault with failures := 4 } : CircuitBreaker).state ≠ .OPEN
    ∧ ((CircuitBreaker.execute { CircuitBreaker.mkDefault with failures := 4 } 0 false true).2
        = .fnFailureFallback
      ∧ (CircuitBreaker.execute { CircuitBreaker.mkDefault with failures := 4 } 0 false true).1.failures
        = ({ CircuitBreaker.mkDefault with failures := 4 } : CircuitBreaker).failures + 1
      ∧ (CircuitBreaker.execute { CircuitBreaker.mkDefault with failures := 4 } 0 false true).1.metrics.totalFailures
        = ({ CircuitBreaker.mkDefault with failures := 4 } : CircuitBreaker).metrics.totalFailures + 1
      ∧ (CircuitBreaker.execute { CircuitBreaker.mkDefault with failures := 4 } 0 false true).1.state
        = specStateAfter { CircuitBreaker.mkDefault with failures := 4 } 0 false) :=
  ⟨by decide, claimC9_fallback_masks_failures _ 0 (by decide)⟩

/-- C2: the transitions one `execute` call performs are exactly those
of `specTransitions` — CLOSED→OPEN when the incremented failure count
reaches `failureThreshold`, OPEN→HALF_OPEN when at least `resetTimeout`
has elapsed since the last state change (attempted on that next call,
whose trial run may then leave HALF_OPEN again), HALF_OPEN→CLOSED when
the success count reaches `successThreshold`, HALF_OPEN→OPEN on any
failure, and none otherwise; the resulting state is the endpoint of that
transition sequence, and a transition to CLOSED resets both counters. -/
theorem claimC2_transitions_exact (cb : CircuitBreaker) (now : Nat) (fnS fb : Bool) :
    (CircuitBreaker.execute cb now fnS fb).1.trace = cb.trace ++ specTransitions cb now fnS
    ∧ (CircuitBreaker.execute cb now fnS fb).1.state = specStateAfter cb now fnS
    ∧ ((CBState.HALF_OPEN, CBState.CLOSED) ∈ specTransitions cb now fnS →
        (CircuitBreaker.execute cb now fnS fb).1.failures = 0
        ∧ (CircuitBreaker.execute cb now fnS fb).1.successes = 0) := by
  cases hst : cb.state <;> cases fnS <;> cases fb <;>
    simp_all [CircuitBreaker.execute, CircuitBreaker.runAction, CircuitBreaker.onSuccess,
      CircuitBreaker.onFailure, CircuitBreaker.transitionTo, CircuitBreaker.shouldAttemptReset,
      specStateAfter, specTransitions] <;>
    split_ifs <;> simp_all

/-- Witness for C2: a trial success closing the breaker from
HALF_OPEN. -/
theorem claimC2_witness :
    (CircuitBreaker.execute cbHalfOpenNearClose 0 true false).1.trace
      = cbHalfOpenNearClose.trace ++ specTransitions cbHalfOpenNearClose 0 true
    ∧ (CircuitBreaker.execute cbHalfOpenNearClose 0 true false).1.state
      = specStateAfter cbHalfOpenNearClose 0 true
    ∧ ((CircuitBreaker.execute cbHalfOpenNearClose 0 true false).1.failures = 0
      ∧ (CircuitBreaker.execute cbHalfOpenNearClose 0 true false).1.successes = 0) := by
  have h := claimC2_transitions_exact cbHalfOpenNearClose 0 true false
  exact ⟨h.1, h.2.1, h.2.2 (by decide)⟩

/-- C6 fails as stated: a failed attempt's handle is *released back to
the pool*, not destroyed.  Against a fresh pool whose browsers stay
connected, with attempt 1 failing (error 42) and attempt 2 succeeding,
the attempt log shows attempt 0 failed on handle 1, yet the final state
has destroyed nothing — handle 1 is back in (and re-acquired from) the
idle pool. -/
theorem claimC6_counterexample : ¬ scanDestroysFailedAttemptHandle := by
  intro hclaim
  have hmem : ((0 : Nat), (1 : Nat), false) ∈
      (scanURL (fun _ => true) true 0
        (fun i => if i = 0 then .error 42 else .ok ()) false
        (BrowserPool.initialState 2 5)).2.2.2 := by decide
  have := hclaim (fun _ => true) true 0
    (fun i => if i = 0 then .error 42 else .ok ()) false
    (BrowserPool.initialState 2 5) (0, 1, false) hmem rfl
  exact absurd this (by decide)

/-- C6 amended: on a failed attempt `scanURL` *releases* the handle
back to the pool (the pool destroys it only under its own policy —
disconnection or surplus) and sleeps `1000 * attemptNumber` before the
next attempt; a target whose k-th attempt (k ≤ 3) succeeds settles as
an overall success, and one whose 3 attempts all fail settles as
`finalFailure` carrying `attempts = 3` and the last underlying error.
Exhaustively, over a fresh healthy `minSize 2, maxSize 5` pool: the
outcome, the backoff sleeps, and the final idle pool and destroyed set
are determined by the first three attempt outcomes as below (the
released handle 1 always ends back in the idle pool; nothing is ever
destroyed). -/
theorem claimC6_amended (outcomes : Nat → Except Nat Unit) :
    ((scanURL (fun _ => true) true 0 outcomes false (BrowserPool.initialState 2 5)).2.1,
      (scanURL (fun _ => true) true 0 outcomes false (BrowserPool.initialState 2 5)).2.2.1,
      (scanURL (fun _ => true) true 0 outcomes false (BrowserPool.initialState 2 5)).1.pool,
      (scanURL (fun _ => true) true 0 outcomes false (BrowserPool.initialState 2 5)).1.destroyedIds) =
    (match outcomes 0, outcomes 1, outcomes 2 with
      | .ok _, _, _ => (.success 1, ([] : List Nat), [1, 0], ([] : List Nat))
      | .error _, .ok _, _ => (.success 2, [1000], [1, 0], [])
      | .error _, .error _, .ok _ => (.success 3, [1000, 2000], [1, 0], [])
      | .error _, .error _, .error e2 => (.finalFailure 3 e2, [1000, 2000], [1, 0], [])) := by
  rcases h0 : outcomes 0 with e0 | u0
  · rcases h1 : outcomes 1 with e1 | u1
    · rcases h2 : outcomes 2 with e2 | u2
      · simp [scanURL, scanLoop, BrowserPool.acquire, BrowserPool.acquireLoop,
          BrowserPool.release, BrowserPool.initialState, MAX_RETRIES, h0, h1, h2]
      · simp [scanURL, scanLoop, BrowserPool.acquire, BrowserPool.acquireLoop,
          BrowserPool.release, BrowserPool.initialState, MAX_RETRIES, h0, h1, h2]
    · simp [scanURL, scanLoop, BrowserPool.acquire, BrowserPool.acquireLoop,
        BrowserPool.release, BrowserPool.initialState, MAX_RETRIES, h0, h1]
  · simp [scanURL, scanLoop, BrowserPool.acquire, BrowserPool.acquireLoop,
      BrowserPool.release, BrowserPool.initialState, MAX_RETRIES, h0]

/-- `bulkSpecResults` distributes over concatenation of target lists. -/
theorem bulkSpecResults_append (scan : Nat → Except Nat Nat) (l1 l2 : List Nat) :
    bulkSpecResults scan (l1 ++ l2) =
      bulkSpecResults scan l1 ++ bulkSpecResults scan l2 :=
  List.filterMap_append l1 l2 _

/-- `bulkSpecErrors` distributes over concatenation of target lists. -/
theorem bulkSpecErrors_append (scan : Nat → Except Nat Nat) (l1 l2 : List Nat) :
    bulkSpecErrors scan (l1 ++ l2) =
      bulkSpecErrors scan l1 ++ bulkSpecErrors scan l2 :=
  List.filterMap_append l1 l2 _

/-- Every target lands in exactly one of the two accumulators. -/
theorem bulkSpec_total_count (scan : Nat → Except Nat Nat) (urls : List Nat) :
    (bulkSpecResults scan urls).length + (bulkSpecErrors scan urls).length
      = urls.length := by
  induction urls with
  | nil => simp [bulkSpecResults, bulkSpecErrors]
  | cons u us ih =>
      cases h : scan u <;>
        simp [bulkSpecResults, bulkSpecErrors, h] at ih ⊢ <;> omega

/-- The wave loop, run with enough fuel, extends the accumulator by the
per-target spec of the remaining targets and one progress entry per
wave. -/
theorem bulkLoop_spec (scan : Nat → Except Nat Nat) (c total : Nat) :
    ∀ (fuel : Nat) (urls : List Nat) (i : Nat) (acc : BulkResult),
      urls.length ≤ fuel →
      bulkLoop scan c total fuel i urls acc =
        ⟨acc.results ++ bulkSpecResults scan urls,
          acc.errors ++ bulkSpecErrors scan urls,
          acc.progress ++ bulkSpecProgress c total i urls.length⟩ := by
  intro fuel
  induction fuel with
  | zero =>
      intro urls i acc h
      cases urls with
      | nil => simp [bulkLoop, bulkSpecResults, bulkSpecErrors, bulkSpecProgress]
      | cons u us => simp at h
  | succ fuel ih =>
      intro urls i acc h
      cases urls with
      | nil => simp [bulkLoop, bulkSpecResults, bulkSpecErrors, bulkSpecProgress]
      | cons u us =>
          have hle : ((u :: us).drop (c + 1)).length ≤ fuel := by
            simp only [List.length_drop, List.length_cons] at h ⊢
            omega
          rw [bulkLoop, ih _ _ _ hle]
          have hsplit : bulkSpecResults scan (u :: us) =
              bulkSpecResults scan ((u :: us).take (c + 1))
                ++ bulkSpecResults scan ((u :: us).drop (c + 1)) := by
            rw [← bulkSpecResults_append, List.take_append_drop]
          have hsplitE : bulkSpecErrors scan (u :: us) =
              bulkSpecErrors scan ((u :: us).take (c + 1))
                ++ bulkSpecErrors scan ((u :: us).drop (c + 1)) := by
            rw [← bulkSpecErrors_append, List.take_append_drop]
          have hmap : (((u :: us).take (c + 1)).map (fun v => (v, scan v))).filterMap
                (fun p => match p.2 with | .ok v => some (p.1, v) | .error _ => none)
              = bulkSpecResults scan ((u :: us).take (c + 1)) := by
            rw [List.filterMap_map]; rfl
          have hmapE : (((u :: us).take (c + 1)).map (fun v => (v, scan v))).filterMap
                (fun p => match p.2 with | .ok _ => none | .error e => some (p.1, e))
              = bulkSpecErrors scan ((u :: us).take (c + 1)) := by
            rw [List.filterMap_map]; rfl
          have hdrop : ((u :: us).drop (c + 1)).length = us.length - c := by
            simp only [List.length_drop, List.length_cons]
            omega
          have hprog : bulkSpecProgress c total i (u :: us).length =
              min (i + (c + 1)) total
                :: bulkSpecProgress c total (i + (c + 1)) (us.length - c) := by
            simp [bulkSpecProgress]
          simp only [hmap, hmapE, hdrop, hprog, hsplit, hsplitE, List.append_assoc,
            List.singleton_append, List.cons_append, List.nil_append]

/-- C7: for every bulk scan with positive wave size `c + 1`, the run
processes the targets in fixed-size waves: each target settles
independently (`Promise.allSettled` — a rejection never short-circuits
its wave or the run), the fulfilled and rejected targets accumulate in
input order into `results` and `errors`, one progress value
`min (i + concurrency) total` is stored after each wave, and the final
counts satisfy `results.length + errors.length = urls.length`. -/
theorem claimC7_bulk_waves (scan : Nat → Except Nat Nat) (c : Nat) (urls : List Nat) :
    processBulkScan scan (c + 1) urls =
      some ⟨bulkSpecResults scan urls, bulkSpecErrors scan urls,
        bulkSpecProgress c urls.length 0 urls.length⟩
    ∧ (bulkSpecResults scan urls).length + (bulkSpecErrors scan urls).length
        = urls.length := by
  constructor
  · simp [processBulkScan, bulkLoop_spec scan c urls.length urls.length urls 0
      ⟨[], [], []⟩ le_rfl]
  · exact bulkSpec_total_count scan urls

/-- A fresh pool satisfies the invariant. -/
theorem poolInv_init (minS maxS : Nat) : PoolInv (BrowserPool.initialState minS maxS) := by
  refine ⟨rfl, ?_, List.nodup_nil, ?_, ?_, ?_, ?_, ?_, ?_⟩ <;>
    simp [BrowserPool.initialState, List.nodup_reverse, List.nodup_range]

/-- The acquire loop preserves the invariant, and a returned handle is
among the lent-out ones of the resulting state. -/
theorem acquireLoop_poolInv (conn : Nat → Bool) (createOk : Bool) :
    ∀ (l : List Nat) (s : PoolState), s.pool = l → PoolInv s →
      PoolInv (BrowserPool.acquireLoop conn createOk l s).1 ∧
      (∀ h, (BrowserPool.acquireLoop conn createOk l s).2 = .acquired h →
        h ∈ (BrowserPool.acquireLoop conn createOk l s).1.held) := by
  intro l
  induction l with
  | nil =>
      intro s hp hinv
      obtain ⟨hae, hpn, hhn, hpl, hhl, hdl, hpd, hhd, hph⟩ := hinv
      simp only [BrowserPool.acquireLoop]
      by_cases hmax : s.activeCount < s.maxSize
      · cases createOk
        · -- createFailed: only the error metric changes
          simp only [if_pos hmax, Bool.false_eq_true, if_false]
          exact ⟨⟨hae, hpn, hhn, hpl, hhl, hdl, hpd, hhd, hph⟩, by simp⟩
        · -- a fresh browser is created and handed out
          simp only [if_pos hmax, if_true]
          refine ⟨⟨?_, ?_, ?_, ?_, ?_, ?_, ?_, ?_, ?_⟩, ?_⟩
          · simpa using hae
          · simpa using hpn
          · simpa using List.nodup_cons.2 ⟨fun hc => absurd (hhl _ hc) (by omega), hhn⟩
          · simp only [hp]; intro h hh; simp at hh
          · intro h hh
            simp only [List.mem_cons] at hh
            rcases hh with rfl | hh
            · simp
            · have := hhl _ hh; simp; omega
          · intro h hh
            have := hdl _ hh
            simp; omega
          · simp only [hp]; intro h hh; simp at hh
          · intro h hh
            simp only [List.mem_cons] at hh
            rcases hh with rfl | hh
            · exact fun hc => absurd (hdl _ hc) (by omega)
            · exact hhd _ hh
          · simp only [hp]; intro h hh; simp at hh
          · intro h hacq
            simp only [BrowserPool.AcquireResult.acquired.injEq] at hacq
            simp [hacq]
      · -- pool exhausted: the request is queued
        simp only [if_neg hmax]
        exact ⟨⟨hae, hpn, hhn, hpl, hhl, hdl, hpd, hhd, hph⟩, by simp⟩
  | cons b rest ih =>
      intro s hp hinv
      obtain ⟨hae, hpn, hhn, hpl, hhl, hdl, hpd, hhd, hph⟩ := hinv
      rw [hp] at hpn hpl hpd hph
      simp only [List.nodup_cons] at hpn
      obtain ⟨hbrest, hrest⟩ := hpn
      have hbheld : b ∉ s.held := hph _ (by simp)
      have hblt : b < s.nextHandleId := hpl _ (by simp)
      have hbdest : b ∉ s.destroyedIds := hpd _ (by simp)
      simp only [BrowserPool.acquireLoop]
      cases hconn : conn b
      · -- disconnected at probe: destroy and retry
        simp only [Bool.false_eq_true, if_false]
        apply ih
        · rfl
        · refine ⟨hae, hrest, hhn, ?_, hhl, ?_, ?_, ?_, ?_⟩
          · intro h hh; exact hpl _ (by simp [hh])
          · intro h hh
            simp only [List.mem_cons] at hh
            rcases hh with rfl | hh
            · exact hblt
            · exact hdl _ hh
          · intro h hh
            simp only [List.mem_cons]
            push_neg
            exact ⟨fun hc => hbrest (hc ▸ hh), hpd _ (by simp [hh])⟩
          · intro h hh
            simp only [List.mem_cons]
            push_neg
            refine ⟨fun hc => hbheld (hc ▸ hh), hhd _ hh⟩
          · intro h hh; exact hph _ (by simp [hh])
      · -- connected: lend it out
        simp only [if_true]
        refine ⟨⟨?_, ?_, ?_, ?_, ?_, ?_, ?_, ?_, ?_⟩, ?_⟩
        · simpa using hae
        · simpa using hrest
        · simpa using List.nodup_cons.2 ⟨hbheld, hhn⟩
        · intro h hh
          simp only at hh
          exact hpl _ (by simp [hh])
        · intro h hh
          simp only [List.mem_cons] at hh
          rcases hh with rfl | hh
          · exact hblt
          · exact hhl _ hh
        · exact hdl
        · intro h hh
          simp only at hh
          exact hpd _ (by simp [hh])
        · intro h hh
          simp only [List.mem_cons] at hh
          rcases hh with rfl | hh
          · exact hbdest
          · exact hhd _ hh
        · intro h hh
          simp only at hh
          simp only [List.mem_cons]
          push_neg
          exact ⟨fun hc => hbrest (hc ▸ hh), hph _ (by simp [hh])⟩
        · intro h hacq
          simp only [BrowserPool.AcquireResult.acquired.injEq] at hacq
          simp [hacq]

/-- `release` preserves the invariant (for a handle actually lent
out). -/
theorem release_poolInv (conn : Nat → Bool) (h : Nat) (s : PoolState)
    (hmem : h ∈ s.held) (hinv : PoolInv s) :
    PoolInv (BrowserPool.release conn h s).1 := by
  obtain ⟨hae, hpn, hhn, hpl, hhl, hdl, hpd, hhd, hph⟩ := hinv
  have hpos : 1 ≤ s.held.length := List.length_pos.2 (List.ne_nil_of_mem hmem)
  have hlen : (s.held.erase h).length = s.held.length - 1 := List.length_erase_of_mem hmem
  have hsubE : ∀ x ∈ s.held.erase h, x ∈ s.held := fun x hx => List.mem_of_mem_erase hx
  have hneE : ∀ x ∈ s.held.erase h, x ≠ h :=
    fun x hx => ((List.Nodup.mem_erase_iff hhn).1 hx).1
  have hErase : (s.held.erase h).Nodup := hhn.erase h
  have hEh : h ∉ s.held.erase h := fun hc => (hneE _ hc) rfl
  have hheldpool : h ∉ s.pool := fun hc => hph _ hc hmem
  have hhlt : h < s.nextHandleId := hhl _ hmem
  have hhdst : h ∉ s.destroyedIds := hhd _ hmem
  simp only [BrowserPool.release]
  cases hconn : conn h
  · -- disconnected: destroy; the optional replacement is only launched
    -- (pendingCreations), so both branches carry the same pool fields
    simp only [Bool.false_eq_true, if_false]
    have hcommon : ∀ x ∈ s.pool, x ∉ h :: s.destroyedIds := by
      intro x hx hc
      rcases List.mem_cons.1 hc with heq | hc
      · exact hheldpool (heq ▸ hx)
      · exact hpd _ hx hc
    have hcommonH : ∀ x ∈ s.held.erase h, x ∉ h :: s.destroyedIds := by
      intro x hx hc
      rcases List.mem_cons.1 hc with heq | hc
      · exact hneE _ hx heq
      · exact hhd _ (hsubE _ hx) hc
    have hcommonD : ∀ x ∈ h :: s.destroyedIds, x < s.nextHandleId := by
      intro x hx
      rcases List.mem_cons.1 hx with rfl | hx
      · exact hhlt
      · exact hdl _ hx
    split
    · exact ⟨by dsimp only; omega, hpn, hErase, hpl,
        fun x hx => hhl _ (hsubE _ hx), hcommonD, hcommon, hcommonH,
        fun x hx hc => hph _ hx (hsubE _ hc)⟩
    · exact ⟨by dsimp only; omega, hpn, hErase, hpl,
        fun x hx => hhl _ (hsubE _ hx), hcommonD, hcommon, hcommonH,
        fun x hx hc => hph _ hx (hsubE _ hc)⟩
  · -- healthy
    simp only [if_true]
    cases hq : s.queue with
    | cons e rest =>
        simp only [hq]
        refine ⟨?_, hpn, ?_, hpl, ?_, hdl, hpd, ?_, ?_⟩
        · dsimp only
          simp only [List.length_cons]
          omega
        · dsimp only
          exact List.nodup_cons.2 ⟨hEh, hErase⟩
        · dsimp only
          intro x hx
          rcases List.mem_cons.1 hx with rfl | hx
          · exact hhlt
          · exact hhl _ (hsubE _ hx)
        · dsimp only
          intro x hx
          rcases List.mem_cons.1 hx with rfl | hx
          · exact hhdst
          · exact hhd _ (hsubE _ hx)
        · dsimp only
          intro x hx hc
          rcases List.mem_cons.1 hc with heq | hc
          · exact hheldpool (heq ▸ hx)
          · exact hph _ hx (hsubE _ hc)
    | nil =>
        simp only [hq]
        by_cases hfull : s.pool.length < s.maxSize
        · simp only [if_pos hfull]
          refine ⟨?_, ?_, hErase, ?_, ?_, hdl, ?_, ?_, ?_⟩
          · dsimp only
            omega
          · dsimp only
            exact List.nodup_cons.2 ⟨hheldpool, hpn⟩
          · dsimp only
            intro x hx
            rcases List.mem_cons.1 hx with rfl | hx
            · exact hhlt
            · exact hpl _ hx
          · dsimp only
            intro x hx; exact hhl _ (hsubE _ hx)
          · dsimp only
            intro x hx
            rcases List.mem_cons.1 hx with rfl | hx
            · exact hhdst
            · exact hpd _ hx
          · dsimp only
            intro x hx
            exact hhd _ (hsubE _ hx)
          · dsimp only
            intro x hx
            rcases List.mem_cons.1 hx with rfl | hx
            · exact hEh
            · exact fun hc => hph _ hx (hsubE _ hc)
        · simp only [if_neg hfull]
          refine ⟨?_, hpn, hErase, hpl, ?_, ?_, ?_, ?_, ?_⟩
          · dsimp only
            omega
          · dsimp only
            intro x hx; exact hhl _ (hsubE _ hx)
          · dsimp only
            intro x hx
            rcases List.mem_cons.1 hx with rfl | hx
            · exact hhlt
            · exact hdl _ hx
          · dsimp only
            intro x hx hc
            rcases List.mem_cons.1 hc with heq | hc
            · exact hheldpool (heq ▸ hx)
            · exact hpd _ hx hc
          · dsimp only
            intro x hx hc
            rcases List.mem_cons.1 hc with heq | hc
            · exact hneE _ hx heq
            · exact hhd _ (hsubE _ hx) hc
          · dsimp only
            intro x hx
            exact fun hc => hph _ hx (hsubE _ hc)

/-- The synchronous destroy phase of `healthCheck` preserves the
invariant. -/
theorem healthCheck_poolInv (conn : Nat → Bool) (s : PoolState) (hinv : PoolInv s) :
    PoolInv (BrowserPool.healthCheck conn s) := by
  obtain ⟨hae, hpn, hhn, hpl, hhl, hdl, hpd, hhd, hph⟩ := hinv
  have hfsub : ∀ x ∈ s.pool.filter (fun b => conn b), x ∈ s.pool :=
    fun x hx => (List.mem_filter.1 hx).1
  have husub : ∀ x ∈ s.pool.filter (fun b => !conn b), x ∈ s.pool :=
    fun x hx => (List.mem_filter.1 hx).1
  have hfu : ∀ x ∈ s.pool.filter (fun b => conn b),
      x ∉ s.pool.filter (fun b => !conn b) := by
    intro x hx hc
    have h1 := (List.mem_filter.1 hx).2
    have h2 := (List.mem_filter.1 hc).2
    simp at h1 h2
    rw [h1] at h2
    cases h2
  simp only [BrowserPool.healthCheck]
  refine ⟨hae, ?_, hhn, ?_, hhl, ?_, ?_, ?_, ?_⟩
  · dsimp only
    exact hpn.filter _
  · dsimp only
    intro x hx
    exact hpl _ (hfsub _ hx)
  · dsimp only
    intro x hx
    rcases List.mem_append.1 hx with hx | hx
    · exact hpl _ (husub _ hx)
    · exact hdl _ hx
  · dsimp only
    intro x hx hc
    rcases List.mem_append.1 hc with hc | hc
    · exact hfu _ hx hc
    · exact hpd _ (hfsub _ hx) hc
  · dsimp only
    intro x hx hc
    rcases List.mem_append.1 hc with hc | hc
    · exact hph _ (husub _ hc) hx
    · exact hhd _ hx hc
  · dsimp only
    intro x hx
    exact hph _ (hfsub _ hx)

/-- Launching a replenishment creation changes only the in-flight
counter, so the invariant carries over. -/
theorem replenishBegin_poolInv (s : PoolState) (hinv : PoolInv s) :
    PoolInv (BrowserPool.replenishBegin s) := by
  obtain ⟨hae, hpn, hhn, hpl, hhl, hdl, hpd, hhd, hph⟩ := hinv
  exact ⟨hae, hpn, hhn, hpl, hhl, hdl, hpd, hhd, hph⟩

/-- The landing of an in-flight creation pushes a fresh handle, which
preserves the invariant. -/
theorem creationLands_poolInv (s : PoolState) (hinv : PoolInv s) :
    PoolInv (BrowserPool.creationLands s) := by
  obtain ⟨hae, hpn, hhn, hpl, hhl, hdl, hpd, hhd, hph⟩ := hinv
  simp only [BrowserPool.creationLands]
  refine ⟨hae, ?_, hhn, ?_, ?_, ?_, ?_, ?_, ?_⟩
  · dsimp only
    exact List.nodup_cons.2 ⟨fun hc => absurd (hpl _ hc) (by omega), hpn⟩
  · dsimp only
    intro x hx
    rcases List.mem_cons.1 hx with rfl | hx
    · omega
    · have := hpl _ hx; omega
  · dsimp only
    intro x hx
    have := hhl _ hx; omega
  · dsimp only
    intro x hx
    have := hdl _ hx; omega
  · dsimp only
    intro x hx
    rcases List.mem_cons.1 hx with rfl | hx
    · exact fun hc => absurd (hdl _ hc) (by omega)
    · exact hpd _ hx
  · dsimp only
    exact hhd
  · dsimp only
    intro x hx
    rcases List.mem_cons.1 hx with rfl | hx
    · exact fun hc => absurd (hhl _ hc) (by omega)
    · exact hph _ hx

/-- The failure of an in-flight creation changes only the error metric
and the in-flight counter, so the invariant carries over. -/
theorem creationFails_poolInv (s : PoolState) (hinv : PoolInv s) :
    PoolInv (BrowserPool.creationFails s) := by
  obtain ⟨hae, hpn, hhn, hpl, hhl, hdl, hpd, hhd, hph⟩ := hinv
  exact ⟨hae, hpn, hhn, hpl, hhl, hdl, hpd, hhd, hph⟩

/-- A firing deadline timer touches only the queue and the timed-out
ledger, so the invariant carries over. -/
theorem timeoutFire_poolInv (w : Nat) (s : PoolState) (hinv : PoolInv s) :
    PoolInv (BrowserPool.timeoutFire w s) := by
  obtain ⟨hae, hpn, hhn, hpl, hhl, hdl, hpd, hhd, hph⟩ := hinv
  simp only [BrowserPool.timeoutFire]
  split <;> exact ⟨hae, hpn, hhn, hpl, hhl, hdl, hpd, hhd, hph⟩

/-- Every reachable pool state satisfies the invariant. -/
theorem reachable_poolInv {s : PoolState} (hs : BrowserPool.Reachable s) : PoolInv s := by
  induction hs with
  | init minS maxS => exact poolInv_init minS maxS
  | acquireStep conn createOk _ ih => exact (acquireLoop_poolInv conn createOk _ _ rfl ih).1
  | releaseStep conn h _ hmem ih => exact release_poolInv conn h _ hmem ih
  | healthStep conn _ ih => exact healthCheck_poolInv conn _ ih
  | replenishStep _ _ ih => exact replenishBegin_poolInv _ ih
  | creationLandsStep _ _ ih => exact creationLands_poolInv _ ih
  | creationFailsStep _ _ ih => exact creationFails_poolInv _ ih
  | timeoutStep w _ ih => exact timeoutFire_poolInv w _ ih

/-- C1 fails on the program: the bound `activeCount + poolSize ≤ maxSize`
is violated at an observation point of a real schedule.  On a
`minSize 2, maxSize 2` pool (`poolOvershoot`'s trace): both browsers
acquired; one released as disconnected, which fires the un-awaited
replacement `createBrowser()` (1 active + 0 idle < minSize at that
moment); a third acquire then creates a browser, refilling the active
count to 2; the replacement's launch finally resolves and its
`pool.push` lands with no re-check of any bound — leaving 2 active +
1 idle = 3 > maxSize = 2, visible to `getStats()`. -/
theorem claimC1_bound_violated : ¬ poolBoundClaim := by
  intro hclaim
  have hreach : BrowserPool.Reachable poolOvershoot :=
    BrowserPool.Reachable.creationLandsStep
      (BrowserPool.Reachable.acquireStep (fun _ => true) true
        (BrowserPool.Reachable.releaseStep (fun _ => false) 1
          (BrowserPool.Reachable.acquireStep (fun _ => true) true
            (BrowserPool.Reachable.acquireStep (fun _ => true) true
              (BrowserPool.Reachable.init 2 2)))
          (by decide)))
      (by decide)
  have := hclaim poolOvershoot hreach (by decide)
  exact absurd this (by decide)

/-- C5: a `release()` of a disconnected handle never places it in the
idle pool — it joins the destroyed set, with a replacement creation
scheduled exactly when the remaining `active + idle` count falls below
`minSize` — and an `acquire()` on any reachable state never returns a
destroyed handle (the handle it returns is absent from the destroyed
set of the resulting state). -/
theorem claimC5_no_destroyed_handles
    (conn conn2 : Nat → Bool) (createOk : Bool) (h h2 : Nat) (s s2 : PoolState)
    (hs : BrowserPool.Reachable s) (hmem : h ∈ s.held) (hc : conn h = false)
    (hs2 : BrowserPool.Reachable s2)
    (hacq : (BrowserPool.acquire conn2 createOk s2).2 = .acquired h2) :
    h ∉ (BrowserPool.release conn h s).1.pool
    ∧ h ∈ (BrowserPool.release conn h s).1.destroyedIds
    ∧ ((BrowserPool.release conn h s).2 = .destroyedUnhealthy true
        ↔ s.pool.length + (s.activeCount - 1) < s.minSize)
    ∧ h2 ∉ (BrowserPool.acquire conn2 createOk s2).1.destroyedIds := by
  have hinv := reachable_poolInv hs
  have hpoolh : h ∉ s.pool := fun hcp => hinv.poolHeld _ hcp hmem
  have hlt : h < s.nextHandleId := hinv.heldLt _ hmem
  have hai := acquireLoop_poolInv conn2 createOk s2.pool s2 rfl (reachable_poolInv hs2)
  have hmem2 : h2 ∈ (BrowserPool.acquire conn2 createOk s2).1.held := hai.2 h2 hacq
  have hnd2 : h2 ∉ (BrowserPool.acquire conn2 createOk s2).1.destroyedIds :=
    hai.1.heldDest _ hmem2
  refine ⟨?_, ?_, ?_, hnd2⟩
  · simp only [BrowserPool.release, hc, Bool.false_eq_true, if_false]
    by_cases hrep : s.pool.length + (s.activeCount - 1) < s.minSize
    · simp only [if_pos hrep]
      try dsimp only
      exact hpoolh
    · simp only [if_neg hrep]
      try dsimp only
      exact hpoolh
  · simp only [BrowserPool.release, hc, Bool.false_eq_true, if_false]
    by_cases hrep : s.pool.length + (s.activeCount - 1) < s.minSize
    · simp only [if_pos hrep]
      try dsimp only
      exact List.mem_cons_self _ _
    · simp only [if_neg hrep]
      try dsimp only
      exact List.mem_cons_self _ _
  · simp only [BrowserPool.release, hc, Bool.false_eq_true, if_false]
    by_cases hrep : s.pool.length + (s.activeCount - 1) < s.minSize
    · simp only [if_pos hrep]
      simp [hrep]
    · simp only [if_neg hrep]
      simp [hrep]

/-- Witness for C5: releasing the disconnected lent-out handle of
`poolOneActive`, and acquiring from a fresh `minSize 2, maxSize 5`
pool. -/
theorem claimC5_witness :
    (0 ∈ poolOneActive.held
      ∧ ((fun _ => false) : Nat → Bool) 0 = false
      ∧ (BrowserPool.acquire (fun _ => true) true (BrowserPool.initialState 2 5)).2
          = .acquired 1)
    ∧ (0 ∉ (BrowserPool.release (fun _ => false) 0 poolOneActive).1.pool
      ∧ 0 ∈ (BrowserPool.release (fun _ => false) 0 poolOneActive).1.destroyedIds
      ∧ ((BrowserPool.release (fun _ => false) 0 poolOneActive).2
            = .destroyedUnhealthy true
          ↔ poolOneActive.pool.length + (poolOneActive.activeCount - 1)
              < poolOneActive.minSize)
      ∧ 1 ∉ (BrowserPool.acquire (fun _ => true) true
          (BrowserPool.initialState 2 5)).1.destroyedIds) :=
  ⟨⟨by decide, rfl, by decide⟩,
    claimC5_no_destroyed_handles (fun _ => false) (fun _ => true) true 0 1
      poolOneActive (BrowserPool.initialState 2 5)
      (show BrowserPool.Reachable poolOneActive from
        BrowserPool.Reachable.acquireStep (fun _ => true) true
          (BrowserPool.Reachable.init 1 1))
      (by decide) rfl (BrowserPool.Reachable.init 2 5) (by decide)⟩
